import Mathlib

/-!
Verification of the zustand tab-sync middleware
(`src/sync-zustand/sync-zustand-middleware.ts`).

The middleware is embedded shallowly: JavaScript values become the
inductive `JsValue` (object identity is tracked by a numeric id, since
the source compares object values with `!==`, i.e. by reference),
a store state is an insertion-ordered association list, and the
per-instance mutable cell (`pendingDiff`, `flushTimer`) becomes the
record `SyncState` threaded through explicit step functions.  Each Lean
definition mirrors one function of the source file.
-/

namespace ZustandSync

-- JavaScript field values, as the middleware distinguishes them.
-- `vFun` and `vObj` carry a numeric identity so that the source's
-- reference (`!==`) comparison is expressible. Object fields use the
-- mutual `JsFields` list so recursion over nested objects is structural.
mutual
inductive JsValue where
  | vUndefined : JsValue
  | vNull : JsValue
  | vBool (b : Bool) : JsValue
  | vNum (n : Int) : JsValue
  | vStr (s : String) : JsValue
  | vFun (id : Nat) : JsValue
  | vObj (id : Nat) (fields : JsFields) : JsValue
  deriving DecidableEq

inductive JsFields where
  | nil : JsFields
  | cons (key : String) (value : JsValue) (rest : JsFields) : JsFields
  deriving DecidableEq
end

/-- A store state: an insertion-ordered record of top-level fields. -/
abbrev JsState := List (String × JsValue)

/-- Property read `state[key]`: `undefined` when the key is absent. -/
def getProp (st : JsState) (k : String) : JsValue :=
  (st.lookup k).getD .vUndefined

/-- The source's `typeof v === "function"` test. -/
def jsTypeofFunction : JsValue → Bool
  | .vFun _ => true
  | _ => false

/-- JavaScript strict equality `===` as the middleware relies on it:
primitives by value, functions and objects by reference identity. -/
def jsStrictEq : JsValue → JsValue → Bool
  | .vUndefined, .vUndefined => true
  | .vNull, .vNull => true
  | .vBool a, .vBool b => a == b
  | .vNum a, .vNum b => a == b
  | .vStr a, .vStr b => a == b
  | .vFun i, .vFun j => i == j
  | .vObj i _, .vObj j _ => i == j
  | _, _ => false

/-- JavaScript property assignment `obj[k] = v`: overwrite in place when
the key exists, append otherwise (preserving enumeration order). -/
def assign : JsState → String → JsValue → JsState
  | [], k, v => [(k, v)]
  | (k', v') :: rest, k, v =>
    if k' == k then (k, v) :: rest else (k', v') :: assign rest k v

/-- The object spread `\x7b ...prev, ...payload \x7d` used by the inbound
`STATE_UPDATE` merge: every payload field overwrites or extends `prev`. -/
def spreadMerge (prev payload : JsState) : JsState :=
  payload.foldl (fun acc p => assign acc p.1 p.2) prev

/-- One entry of the `exclude` option: an exact key name or a regular
expression, the latter abstracted to its match predicate on key names. -/
inductive ExcludeEntry where
  | exactKey (s : String)
  | regexLike (test : String → Bool)

/-- Source `matchPatternOrKey`: string entries match by equality,
regex entries by `.test(key)`. -/
def matchPatternOrKey (key : String) (patterns : List ExcludeEntry) : Bool :=
  patterns.any fun p =>
    match p with
    | .exactKey s => key == s
    | .regexLike t => t key

/-- One step of the source's djb2 loop
`hash = (hash * 33) ^ str.charCodeAt(i)` with JavaScript 32-bit
semantics: the product is reduced to its low 32 bits (`^` applies
ToInt32) and xored with the code unit. -/
def hashStep (h c : Nat) : Nat :=
  ((h * 33) % 4294967296) ^^^ c

/-- Source `hashStr`: djb2 over the code units starting from 5381, then
`"channel-" + (hash >>> 0).toString(16)`. -/
def hashStr (s : String) : String :=
  "channel-" ++ ⟨Nat.toDigits 16 (s.data.foldl (fun h ch => hashStep h ch.toNat) 5381)⟩

-- JSON serialization of a value as `JSON.stringify` performs it on the
-- shapes the model covers; `none` marks values (functions, undefined)
-- that `JSON.stringify` drops from objects.
mutual
def jsonJV : JsValue → Option String
  | .vUndefined => none
  | .vFun _ => none
  | .vNull => some "null"
  | .vBool b => some (if b then "true" else "false")
  | .vNum n => some (toString n)
  | .vStr s => some ("\x22" ++ s ++ "\x22")
  | .vObj _ fields => some ("\x7b" ++ jsonFields fields ++ "\x7d")

def jsonFields : JsFields → String
  | .nil => ""
  | .cons k v rest =>
    match jsonJV v with
    | none => jsonFields rest
    | some s =>
      let tail := jsonFields rest
      "\x22" ++ k ++ "\x22:" ++ s ++ (if tail = "" then "" else "," ++ tail)
end

/-- JSON text of a top-level state object. -/
def stateJson (st : JsState) : String :=
  let rec fieldsOf : JsState → String
    | [] => ""
    | (k, v) :: rest =>
      match jsonJV v with
      | none => fieldsOf rest
      | some s =>
        let tail := fieldsOf rest
        "\x22" ++ k ++ "\x22:" ++ s ++ (if tail = "" then "" else "," ++ tail)
  "\x7b" ++ fieldsOf st ++ "\x7d"

/-- Source `hashState`: `hashStr(JSON.stringify(obj))`. -/
def hashState (st : JsState) : String :=
  hashStr (stateJson st)

/-- The options object accepted by `createWithSync`: the constructor
reads only `options?.exclude`; no other property is consulted. -/
structure CreateOptions where
  exclude : List ExcludeEntry

/-- Whether the instance obtained a channel at construction (`getSyncChannel`
returned non-null) or degraded to local-only operation. -/
inductive Mode where
  | active
  | localOnly
  deriving DecidableEq

/-- The immutable per-instance data fixed at construction: the random
`instanceId`, the computed channel name, the exclude list, and the mode. -/
structure Instance where
  instanceId : String
  channelName : String
  exclude : List ExcludeEntry
  mode : Mode

/-- The mutable per-instance cell: the store's state, the `pendingDiff`
record and whether a `flushTimer` is armed. -/
structure SyncState where
  storeState : JsState
  pendingDiff : JsState
  timerArmed : Bool

/-- A message published to the channel via `channel.postMessage`:
`LOAD` messages carry no payload, `STATE_UPDATE` messages carry one. -/
structure OutMessage where
  type : String
  source : String
  payload : Option JsState
  deriving DecidableEq

/-- An inbound message as the handler receives it: each property read
yields `none` when the field is absent (JavaScript `undefined`). -/
structure RawMessage where
  type : Option String
  source : Option String
  payload : Option JsState

/-- Source `createWithSync` construction (lines 96-106 and 144): the
channel name is `hashState(initialState)` computed from the initial
state, never from the options; with a channel, a `LOAD` message is
posted immediately; without one, a single warning is emitted and the
plain initializer runs (local-only mode).  Returns the instance, the
emitted warnings and the messages posted during construction. -/
def createWithSync (options : CreateOptions) (initialState : JsState)
    (instanceId : String) (channelAvailable : Bool) :
    Instance × List String × List OutMessage :=
  let name := hashState initialState
  if channelAvailable then
    (⟨instanceId, name, options.exclude, .active⟩, [],
      [⟨"LOAD", instanceId, none⟩])
  else
    (⟨instanceId, name, options.exclude, .localOnly⟩,
      ["No supported sync channel available!"], [])

/-- Source `getKeysToSync`: the keys of the current state, dropping keys
matched by the exclude list and keys whose value is a function. -/
def getKeysToSync (exclude : List ExcludeEntry) (currentState : JsState) :
    List String :=
  (currentState.map Prod.fst).filter fun key =>
    !matchPatternOrKey key exclude && !jsTypeofFunction (getProp currentState key)

/-- Source `customSet` (lines 146-158): capture the previous state, apply
the mutation (the resulting state is `post`), then record, for each key
to sync whose value changed by `!==`, the new value into `pendingDiff`,
and schedule a flush; with no keys to sync it returns before scheduling. -/
def customSet (inst : Instance) (st : SyncState) (post : JsState) : SyncState :=
  let prevState := st.storeState
  let currentState := post
  let keysToSync := getKeysToSync inst.exclude currentState
  if keysToSync.isEmpty then { st with storeState := currentState }
  else
    let pd := keysToSync.foldl
      (fun pd key =>
        if jsStrictEq (getProp currentState key) (getProp prevState key) then pd
        else assign pd key (getProp currentState key))
      st.pendingDiff
    { storeState := currentState, pendingDiff := pd, timerArmed := true }

/-- Source `flushDiff` (lines 112-122): when `pendingDiff` is non-empty,
post a `STATE_UPDATE` carrying a snapshot copy of it and clear it;
either way the timer ends disarmed (`flushTimer = null`). -/
def flushDiff (inst : Instance) (st : SyncState) :
    SyncState × Option OutMessage :=
  if st.pendingDiff.isEmpty then ({ st with timerArmed := false }, none)
  else
    ({ st with pendingDiff := [], timerArmed := false },
      some ⟨"STATE_UPDATE", inst.instanceId, some st.pendingDiff⟩)

/-- Source `channel.onMessage` handler (lines 160-177): drop null
messages and messages whose `source` is the own instance id; answer
`LOAD` with a full snapshot of the keys to sync; merge `STATE_UPDATE`
payloads into the state through the raw `set`; ignore anything else. -/
def handleMessage (inst : Instance) (st : SyncState) (msg : Option RawMessage) :
    SyncState × List OutMessage :=
  match msg with
  | none => (st, [])
  | some m =>
    if m.source == some inst.instanceId then (st, [])
    else if m.type == some "LOAD" then
      let keysToSync := getKeysToSync inst.exclude st.storeState
      let fullState := keysToSync.foldl
        (fun fs key => assign fs key (getProp st.storeState key)) []
      (st, [⟨"STATE_UPDATE", inst.instanceId, some fullState⟩])
    else if m.type == some "STATE_UPDATE" then
      ({ st with storeState := spreadMerge st.storeState (m.payload.getD []) }, [])
    else (st, [])

/-- The events an instance reacts to: a local mutation (carrying the
post-mutation store state), expiry of the flush timer, and delivery of
an inbound message. -/
inductive Event where
  | mutate (post : JsState)
  | timerFire
  | inbound (msg : Option RawMessage)

/-- One event step.  In local-only mode the initializer received the raw
`set`, no timer is ever armed and no message handler was subscribed, so
a mutation only updates the store and the other events are no-ops. -/
def step (inst : Instance) (st : SyncState) : Event → SyncState × List OutMessage
  | .mutate post =>
    match inst.mode with
    | .localOnly => ({ st with storeState := post }, [])
    | .active => (customSet inst st post, [])
  | .timerFire =>
    match inst.mode with
    | .localOnly => (st, [])
    | .active =>
      if st.timerArmed then
        let r := flushDiff inst st
        (r.1, r.2.toList)
      else (st, [])
  | .inbound msg =>
    match inst.mode with
    | .localOnly => (st, [])
    | .active => handleMessage inst st msg

/-- Run a sequence of events, collecting every posted message in order. -/
def run (inst : Instance) : SyncState → List Event → SyncState × List OutMessage
  | st, [] => (st, [])
  | st, e :: es =>
    let r := step inst st e
    let rs := run inst r.1 es
    (rs.1, r.2 ++ rs.2)

/-- Modelled from the spec: a value that the spec's serializability test
rejects — an object holding an unclonable reference, here a callable
among its fields (the code itself contains no such test). -/
def hasCallableField : JsValue → Bool
  | .vFun _ => true
  | .vObj _ fields => anyCallable fields
  | _ => false
where
  anyCallable : JsFields → Bool
    | .nil => false
    | .cons _ v rest => jsTypeofFunction v || anyCallable rest

/-- All keys of a pending diff pass the exclude filter. -/
def cleanDiff (ex : List ExcludeEntry) (pd : JsState) : Bool :=
  pd.all fun p => !matchPatternOrKey p.1 ex

/-- A posted message's payload (if any) contains no excluded key. -/
def cleanMsg (ex : List ExcludeEntry) (m : OutMessage) : Bool :=
  (m.payload.getD []).all fun p => !matchPatternOrKey p.1 ex

/-- Adjacent elements of the list are pairwise distinct. -/
def adjDistinct : List Int → Bool
  | a :: b :: r => a != b && adjDistinct (b :: r)
  | _ => true

/-! ### Helper lemmas about assignment and the accumulation folds -/

theorem lookup_assign (st : JsState) (k k' : String) (v : JsValue) :
    (assign st k v).lookup k' = if k' = k then some v else st.lookup k' := by
  induction st with
  | nil =>
    by_cases h : k' = k
    · subst h; simp [assign, List.lookup]
    · have hb : (k' == k) = false := by simp [h]
      simp [assign, List.lookup, hb, h]
  | cons p rest ih =>
    obtain ⟨k0, v0⟩ := p
    by_cases h : k0 = k
    · subst h
      by_cases h2 : k' = k0
      · subst h2; simp [assign, List.lookup]
      · have hb : (k' == k0) = false := by simp [h2]
        simp [assign, List.lookup, hb, h2]
    · have hb : (k0 == k) = false := by simp [h]
      by_cases h2 : k' = k0
      · have hk : ¬k' = k := by rw [h2]; exact h
        have hb2 : (k' == k0) = true := by simp [h2]
        simp [assign, List.lookup, hb, hb2, hk]
      · have hb2 : (k' == k0) = false := by simp [h2]
        simp [assign, List.lookup, hb, hb2, ih]

theorem cleanDiff_assign (ex : List ExcludeEntry) (pd : JsState) (k : String)
    (v : JsValue) (h2 : matchPatternOrKey k ex = false) :
    cleanDiff ex pd = true → cleanDiff ex (assign pd k v) = true := by
  induction pd with
  | nil => intro _; simp [assign, cleanDiff, h2]
  | cons p rest ih =>
    obtain ⟨k0, v0⟩ := p
    intro h1
    simp only [cleanDiff, List.all_cons, Bool.and_eq_true] at h1
    by_cases h : k0 = k
    · rw [show assign ((k0, v0) :: rest) k v = (k, v) :: rest from by
        simp [assign, h]]
      simp only [cleanDiff, List.all_cons, Bool.and_eq_true]
      exact ⟨by simp [h2], h1.2⟩
    · rw [show assign ((k0, v0) :: rest) k v = (k0, v0) :: assign rest k v from by
        simp [assign, h]]
      simp only [cleanDiff, List.all_cons, Bool.and_eq_true]
      exact ⟨h1.1, ih h1.2⟩

theorem condFold_lookup_not_mem (c : String → Bool) (f : String → JsValue)
    (keys : List String) (k : String) :
    ∀ pd : JsState, k ∉ keys →
      ((keys.foldl (fun pd key =>
        if c key then pd else assign pd key (f key)) pd).lookup k)
      = pd.lookup k := by
  induction keys with
  | nil => intro pd _; rfl
  | cons key0 rest ih =>
    intro pd h
    simp only [List.mem_cons, not_or] at h
    simp only [List.foldl_cons]
    rw [ih _ h.2]
    by_cases hc : c key0 <;> simp [hc, lookup_assign, h.1]

theorem condFold_lookup_mem (c : String → Bool) (f : String → JsValue)
    (keys : List String) (k : String) :
    ∀ pd : JsState, k ∈ keys → c k = false →
      ((keys.foldl (fun pd key =>
        if c key then pd else assign pd key (f key)) pd).lookup k)
      = some (f k) := by
  induction keys with
  | nil => intro pd hm _; cases hm
  | cons key0 rest ih =>
    intro pd hm hc
    by_cases hr : k ∈ rest
    · simpa using ih _ hr hc
    · have hk : k = key0 := by
        rcases List.mem_cons.mp hm with h | h
        · exact h
        · exact absurd h hr
      subst hk
      simp only [List.foldl_cons, hc, if_false]
      rw [condFold_lookup_not_mem _ _ _ _ _ hr]
      simp [lookup_assign]

theorem condFold_id (c : String → Bool) (f : String → JsValue)
    (keys : List String) :
    ∀ pd : JsState, (∀ key ∈ keys, c key = true) →
      keys.foldl (fun pd key =>
        if c key then pd else assign pd key (f key)) pd = pd := by
  induction keys with
  | nil => intro pd _; rfl
  | cons key0 rest ih =>
    intro pd h
    have h0 : c key0 = true := h key0 (List.mem_cons_self _ _)
    simp only [List.foldl_cons, h0, if_true]
    exact ih _ fun key hk => h key (List.mem_cons_of_mem _ hk)

theorem condFold_clean (ex : List ExcludeEntry) (c : String → Bool)
    (f : String → JsValue) (keys : List String) :
    ∀ pd : JsState, cleanDiff ex pd = true →
      (∀ key ∈ keys, matchPatternOrKey key ex = false) →
      cleanDiff ex (keys.foldl (fun pd key =>
        if c key then pd else assign pd key (f key)) pd) = true := by
  induction keys with
  | nil => intro pd h1 _; exact h1
  | cons key0 rest ih =>
    intro pd h1 h2
    simp only [List.foldl_cons]
    refine ih _ ?_ fun key hk => h2 key (List.mem_cons_of_mem _ hk)
    by_cases hc : c key0
    · simpa [hc] using h1
    · simpa [hc] using
        cleanDiff_assign ex pd key0 (f key0) (h2 key0 (List.mem_cons_self _ _)) h1

theorem keyFold_clean (ex : List ExcludeEntry) (f : String → JsValue)
    (keys : List String) :
    ∀ acc : JsState, cleanDiff ex acc = true →
      (∀ key ∈ keys, matchPatternOrKey key ex = false) →
      cleanDiff ex (keys.foldl (fun fs key => assign fs key (f key)) acc) = true := by
  induction keys with
  | nil => intro acc h1 _; exact h1
  | cons key0 rest ih =>
    intro acc h1 h2
    simp only [List.foldl_cons]
    exact ih _ (cleanDiff_assign ex acc key0 (f key0)
        (h2 key0 (List.mem_cons_self _ _)) h1)
      fun key hk => h2 key (List.mem_cons_of_mem _ hk)

theorem spreadFold_lookup_not_mem (payload : JsState) (k : String) :
    ∀ acc : JsState, k ∉ payload.map Prod.fst →
      ((payload.foldl (fun acc p => assign acc p.1 p.2) acc).lookup k)
      = acc.lookup k := by
  induction payload with
  | nil => intro acc _; rfl
  | cons p rest ih =>
    intro acc h
    simp only [List.map_cons, List.mem_cons, not_or] at h
    simp only [List.foldl_cons]
    rw [ih _ h.2]
    simp [lookup_assign, h.1]

theorem lookup_spreadMerge_of_mem (payload : JsState) (k : String)
    (v : JsValue) :
    ∀ prev : JsState, (payload.map Prod.fst).Nodup →
      payload.lookup k = some v →
      (spreadMerge prev payload).lookup k = some v := by
  induction payload with
  | nil => intro prev _ hl; cases hl
  | cons p rest ih =>
    intro prev hnd hl
    obtain ⟨k0, v0⟩ := p
    simp only [List.map_cons, List.nodup_cons] at hnd
    by_cases h : k = k0
    · subst h
      have hb : (k == k) = true := by simp
      simp only [List.lookup, hb] at hl
      obtain rfl : v0 = v := by
        cases hl; rfl
      simp only [spreadMerge, List.foldl_cons]
      rw [spreadFold_lookup_not_mem _ _ _ hnd.1]
      simp [lookup_assign]
    · have hb : (k == k0) = false := by simp [h]
      simp only [List.lookup, hb] at hl
      simpa [spreadMerge] using ih (assign prev k0 v0) hnd.2 hl

theorem mem_getKeysToSync (ex : List ExcludeEntry) (st : JsState) (k : String) :
    k ∈ getKeysToSync ex st ↔
      k ∈ st.map Prod.fst ∧ matchPatternOrKey k ex = false ∧
        jsTypeofFunction (getProp st k) = false := by
  simp [getKeysToSync, List.mem_filter, Bool.and_eq_true, and_assoc]

/-! ### Helper lemmas about event runs -/

theorem run_append (inst : Instance) :
    ∀ (l1 l2 : List Event) (st : SyncState),
      run inst st (l1 ++ l2) =
        ((run inst (run inst st l1).1 l2).1,
          (run inst st l1).2 ++ (run inst (run inst st l1).1 l2).2) := by
  intro l1
  induction l1 with
  | nil => intro l2 st; simp [run]
  | cons e rest ih =>
    intro l2 st
    simp [run, ih, List.append_assoc]

theorem run_out_localOnly (inst : Instance) (h : inst.mode = .localOnly) :
    ∀ (evts : List Event) (st : SyncState), (run inst st evts).2 = [] := by
  intro evts
  induction evts with
  | nil => intro st; rfl
  | cons e rest ih =>
    intro st
    have hstep : (step inst st e).2 = [] := by
      cases e <;> simp [step, h]
    simp [run, hstep, ih]

theorem step_clean (inst : Instance) (st : SyncState) (e : Event)
    (h : cleanDiff inst.exclude st.pendingDiff = true) :
    cleanDiff inst.exclude (step inst st e).1.pendingDiff = true ∧
    ∀ m ∈ (step inst st e).2, cleanMsg inst.exclude m = true := by
  cases e with
  | mutate post =>
    cases hmode : inst.mode with
    | localOnly => simp [step, hmode, h]
    | active =>
      refine ⟨?_, by simp [step, hmode]⟩
      simp only [step, hmode]
      by_cases hk : (getKeysToSync inst.exclude post).isEmpty
      · simp [customSet, hk, h]
      · simp only [customSet, hk, if_false, Bool.false_eq_true]
        exact condFold_clean inst.exclude _ _ _ st.pendingDiff h
          fun key hkm => ((mem_getKeysToSync _ _ _).mp hkm).2.1
  | timerFire =>
    cases hmode : inst.mode with
    | localOnly => simp [step, hmode, h]
    | active =>
      by_cases ht : st.timerArmed
      · by_cases hpd : st.pendingDiff.isEmpty
        · simp [step, hmode, ht, flushDiff, hpd, h]
        · refine ⟨by simp [step, hmode, ht, flushDiff, hpd, cleanDiff], ?_⟩
          intro m hmem
          simp [step, hmode, ht, flushDiff, hpd] at hmem
          subst hmem
          simpa [cleanMsg, cleanDiff] using h
      · simp [step, hmode, ht, h]
  | inbound msg =>
    cases hmode : inst.mode with
    | localOnly => simp [step, hmode, h]
    | active =>
      simp only [step, hmode]
      cases msg with
      | none => simp [handleMessage, h]
      | some m =>
        by_cases hs : (m.source == some inst.instanceId) = true
        · simp [handleMessage, hs, h]
        · by_cases hL : (m.type == some "LOAD") = true
          · refine ⟨by simp [handleMessage, hs, hL, h], ?_⟩
            intro m' hmem
            simp [handleMessage, hs, hL] at hmem
            subst hmem
            simp only [cleanMsg, Option.getD_some]
            exact keyFold_clean inst.exclude _ _ [] rfl
              fun key hkm => ((mem_getKeysToSync _ _ _).mp hkm).2.1
          · by_cases hU : (m.type == some "STATE_UPDATE") = true
            · simp [handleMessage, hs, hL, hU, h]
            · simp [handleMessage, hs, hL, hU, h]

theorem run_clean (inst : Instance) :
    ∀ (evts : List Event) (st : SyncState),
      cleanDiff inst.exclude st.pendingDiff = true →
      cleanDiff inst.exclude (run inst st evts).1.pendingDiff = true ∧
      (run inst st evts).2.all (cleanMsg inst.exclude) = true := by
  intro evts
  induction evts with
  | nil => intro st h; exact ⟨h, rfl⟩
  | cons e rest ih =>
    intro st h
    obtain ⟨h1, h2⟩ := step_clean inst st e h
    obtain ⟨h3, h4⟩ := ih (step inst st e).1 h1
    refine ⟨by simpa [run] using h3, ?_⟩
    simp only [run, List.all_append, Bool.and_eq_true]
    exact ⟨List.all_eq_true.mpr h2, h4⟩

/-! ### Claim theorems -/

/-- C1 (counterexample): the broadcast channel is NOT the configured
name.  Two instances constructed with identical configuration (the
constructor's options carry only `exclude`; a `name` property is never
read) end up on different channels whenever their initial states differ,
because `createWithSync` derives the channel name by hashing the JSON
serialization of the initial state. -/
theorem c1_channel_not_config_counterexample :
    (createWithSync ⟨[]⟩ [("count", .vNum 0)] "idA" true).1.channelName ≠
      (createWithSync ⟨[]⟩ [("count", .vNum 1)] "idB" true).1.channelName := by
  decide

/-- C1 (amended): the channel name is a deterministic function of the
initial state alone — `hashState`, the djb2 hash of its JSON text,
prefixed with `"channel-"` — and is independent of the supplied
configuration.  Hence any two instances with the same initial state
observe each other's channel, and the configuration cannot select it. -/
theorem c1_channel_from_initial_state (o1 o2 : CreateOptions) (s : JsState)
    (i1 i2 : String) (a1 a2 : Bool) :
    (createWithSync o1 s i1 a1).1.channelName = hashState s ∧
    (createWithSync o1 s i1 a1).1.channelName =
      (createWithSync o2 s i2 a2).1.channelName := by
  cases a1 <;> cases a2 <;> exact ⟨rfl, rfl⟩

/-- C2 (counterexample): there is no serializability test and no
Serializability Cache.  The key `"h"` holds an object carrying a
callable field — a value the spec's transmission test must reject — yet
the middleware still includes it in the outbound join-snapshot payload
it publishes in answer to a `LOAD` request. -/
theorem c2_no_serializability_test_counterexample :
    hasCallableField
      (getProp [("h", JsValue.vObj 0 (.cons "f" (.vFun 0) .nil))] "h") = true ∧
    (handleMessage ⟨"me2", "c", [], .active⟩
        ⟨[("h", .vObj 0 (.cons "f" (.vFun 0) .nil))], [], false⟩
        (some ⟨some "LOAD", some "other", none⟩)).2 =
      [⟨"STATE_UPDATE", "me2",
        some [("h", .vObj 0 (.cons "f" (.vFun 0) .nil))]⟩] :=
  ⟨rfl, rfl⟩

/-- C2 (amended): the eligibility decision of `getKeysToSync` tests only
the configured exclude list and whether the top-level value is itself a
function.  Object-typed values are always eligible — no transmission
test is attempted, nothing is memoized — so an object containing
unclonable references is still offered for sync until excluded by name. -/
theorem c2_eligibility_only_exclude_and_function (ex : List ExcludeEntry)
    (st : JsState) (k : String) :
    k ∈ getKeysToSync ex st ↔
      k ∈ st.map Prod.fst ∧ matchPatternOrKey k ex = false ∧
        jsTypeofFunction (getProp st k) = false :=
  mem_getKeysToSync ex st k

/-- C3 (counterexample): a message missing the sender-id field is NOT
ignored.  A `STATE_UPDATE` without a `source` field overwrites local
state (an absent sender never compares equal to the receiver's own id),
and a `LOAD` without a `source` field triggers a published reply. -/
theorem c3_missing_sender_processed_counterexample :
    (handleMessage ⟨"me3", "c", [], .active⟩ ⟨[("x", .vNum 0)], [], false⟩
        (some ⟨some "STATE_UPDATE", none, some [("x", .vNum 1)]⟩)).1.storeState
      = [("x", JsValue.vNum 1)] ∧
    [("x", JsValue.vNum 1)] ≠ [("x", JsValue.vNum 0)] ∧
    (handleMessage ⟨"me3", "c", [], .active⟩ ⟨[("x", .vNum 0)], [], false⟩
        (some ⟨some "LOAD", none, none⟩)).2 ≠ [] :=
  ⟨rfl, by decide, by decide⟩

/-- C3 (amended): a null inbound message, or one missing its kind field,
is ignored — local state unchanged, nothing published, no error (the
handler is a total function).  A message missing only the sender-id
field is not ignored: it is processed as if from another instance. -/
theorem c3_missing_kind_ignored (inst : Instance) (st : SyncState)
    (m : RawMessage) :
    handleMessage inst st none = (st, []) ∧
    (m.type = none → handleMessage inst st (some m) = (st, [])) := by
  refine ⟨rfl, fun ht => ?_⟩
  simp [handleMessage, ht]

/-- C3 witness: a concrete kind-less message with a payload leaves the
concrete receiver state untouched and publishes nothing. -/
theorem c3_missing_kind_ignored_witness :
    handleMessage ⟨"w3", "c", [], .active⟩ ⟨[("x", .vNum 0)], [], false⟩
        (some ⟨none, some "other", some [("x", .vNum 5)]⟩) =
      (⟨[("x", .vNum 0)], [], false⟩, []) :=
  (c3_missing_kind_ignored ⟨"w3", "c", [], .active⟩
    ⟨[("x", .vNum 0)], [], false⟩ ⟨none, some "other", some [("x", .vNum 5)]⟩).2 rfl

/-- C6: an inbound message whose sender instance id equals the
receiver's own id is discarded with no state change and no reply, even
when the transport delivers the publisher's own message back to it. -/
theorem c6_no_self_echo (inst : Instance) (st : SyncState) (m : RawMessage)
    (h : m.source = some inst.instanceId) :
    handleMessage inst st (some m) = (st, []) := by
  simp [handleMessage, h]

/-- C6 witness: a concrete self-addressed `STATE_UPDATE` is dropped. -/
theorem c6_no_self_echo_witness :
    handleMessage ⟨"me6", "c", [], .active⟩ ⟨[("x", .vNum 0)], [], false⟩
        (some ⟨some "STATE_UPDATE", some "me6", some [("x", .vNum 9)]⟩) =
      (⟨[("x", .vNum 0)], [], false⟩, []) :=
  c6_no_self_echo ⟨"me6", "c", [], .active⟩ ⟨[("x", .vNum 0)], [], false⟩
    ⟨some "STATE_UPDATE", some "me6", some [("x", .vNum 9)]⟩ rfl

/-- C8: when no channel transport is obtained at construction the
instance degrades permanently to Local-Only: exactly one warning is
emitted, nothing is posted at construction, mutations still update the
store normally, inbound deliveries never change state (no handler was
subscribed), and no run of events ever publishes a message. -/
theorem c8_local_only_degradation (o : CreateOptions) (s : JsState)
    (iid : String) :
    (createWithSync o s iid false).2.1
        = ["No supported sync channel available!"] ∧
    (createWithSync o s iid false).2.2 = [] ∧
    (createWithSync o s iid false).1.mode = .localOnly ∧
    (∀ (st : SyncState) (post : JsState),
      step (createWithSync o s iid false).1 st (.mutate post) =
        ({ st with storeState := post }, [])) ∧
    (∀ (st : SyncState) (m : Option RawMessage),
      step (createWithSync o s iid false).1 st (.inbound m) = (st, [])) ∧
    (∀ (st : SyncState) (evts : List Event),
      (run (createWithSync o s iid false).1 st evts).2 = []) :=
  ⟨rfl, rfl, rfl, fun _ _ => rfl, fun _ _ => rfl,
    fun st evts => run_out_localOnly _ rfl evts st⟩

/-- C9: applying an inbound `STATE_UPDATE` from another instance merges
the payload into the store through the raw setter and does nothing else:
the pending diff and the flush timer are unchanged and no message is
published, so a received update is never re-broadcast. -/
theorem c9_inbound_update_frame (inst : Instance) (st : SyncState)
    (src : String) (payload : JsState)
    (hm : inst.mode = .active) (hs : src ≠ inst.instanceId) :
    step inst st
        (.inbound (some ⟨some "STATE_UPDATE", some src, some payload⟩)) =
      ({ st with storeState := spreadMerge st.storeState payload }, []) := by
  have hb : (some src == some inst.instanceId) = false := by simp [hs]
  simp [step, hm, handleMessage, hb]

/-- C9 witness: a concrete inbound update leaves a non-empty pending
diff and an armed timer untouched and emits nothing. -/
theorem c9_inbound_update_frame_witness :
    step ⟨"me9", "c", [], .active⟩
        ⟨[("x", .vNum 0)], [("p", .vNum 7)], true⟩
        (.inbound (some ⟨some "STATE_UPDATE", some "o", some [("x", .vNum 3)]⟩)) =
      (⟨[("x", .vNum 3)], [("p", .vNum 7)], true⟩, []) :=
  c9_inbound_update_frame ⟨"me9", "c", [], .active⟩
    ⟨[("x", .vNum 0)], [("p", .vNum 7)], true⟩ "o" [("x", .vNum 3)]
    rfl (by decide)

/-- C10: the inbound `STATE_UPDATE` merge writes every payload field
into local state without consulting the receiver's exclude list or the
function filter: the statement holds for every instance, in particular
when the key matches `inst.exclude` or the value is a function. -/
theorem c10_merge_ignores_receiver_filters (inst : Instance)
    (st : SyncState) (src k : String) (payload : JsState) (v : JsValue)
    (hm : inst.mode = .active) (hs : src ≠ inst.instanceId)
    (hnd : (payload.map Prod.fst).Nodup)
    (hk : payload.lookup k = some v) :
    ((step inst st
        (.inbound (some ⟨some "STATE_UPDATE", some src, some payload⟩))).1.storeState).lookup k
      = some v := by
  have hb : (some src == some inst.instanceId) = false := by simp [hs]
  simp only [step, hm, handleMessage, hb, Bool.false_eq_true, if_false]
  simp only [Option.getD_some]
  have hload : (some "STATE_UPDATE" == some "LOAD") = false := by decide
  have hupd : (some "STATE_UPDATE" == some "STATE_UPDATE") = true := by decide
  simp only [hload, hupd, Bool.false_eq_true, if_false, if_true]
  exact lookup_spreadMerge_of_mem payload k v st.storeState hnd hk

/-- C10 witness: a payload key matching the receiver's own exclude
pattern, and a function-valued payload key, both overwrite local state. -/
theorem c10_merge_ignores_receiver_filters_witness :
    matchPatternOrKey "token" [ExcludeEntry.exactKey "token"] = true ∧
    ((step ⟨"meX", "c", [.exactKey "token"], .active⟩
        ⟨[("token", .vStr "old")], [], false⟩
        (.inbound (some ⟨some "STATE_UPDATE", some "o",
          some [("token", .vStr "s"), ("g", .vFun 7)]⟩))).1.storeState).lookup "token"
      = some (.vStr "s") ∧
    ((step ⟨"meX", "c", [.exactKey "token"], .active⟩
        ⟨[("token", .vStr "old")], [], false⟩
        (.inbound (some ⟨some "STATE_UPDATE", some "o",
          some [("token", .vStr "s"), ("g", .vFun 7)]⟩))).1.storeState).lookup "g"
      = some (.vFun 7) :=
  ⟨rfl,
    c10_merge_ignores_receiver_filters ⟨"meX", "c", [.exactKey "token"], .active⟩
      ⟨[("token", .vStr "old")], [], false⟩ "o" "token"
      [("token", .vStr "s"), ("g", .vFun 7)] (.vStr "s")
      rfl (by decide) (by simp) rfl,
    c10_merge_ignores_receiver_filters ⟨"meX", "c", [.exactKey "token"], .active⟩
      ⟨[("token", .vStr "old")], [], false⟩ "o" "g"
      [("token", .vStr "s"), ("g", .vFun 7)] (.vFun 7)
      rfl (by decide) (by simp) rfl⟩

/-- C4: the wrapped mutation entrypoint applies the mutation (the store
ends at the post-mutation state), records every key the Diff/Filter
Engine deems eligible whose value differs by `!==` from its pre-mutation
value into the pending diff with its new value, and, when no eligible
key changed, leaves the pending diff untouched — so the subsequent flush
of a previously empty diff publishes nothing. -/
theorem c4_mutation_records_eligible_changes (inst : Instance)
    (st : SyncState) (post : JsState) :
    (customSet inst st post).storeState = post ∧
    (∀ k, k ∈ getKeysToSync inst.exclude post →
      jsStrictEq (getProp post k) (getProp st.storeState k) = false →
      ((customSet inst st post).pendingDiff.lookup k) = some (getProp post k)) ∧
    ((∀ k ∈ getKeysToSync inst.exclude post,
        jsStrictEq (getProp post k) (getProp st.storeState k) = true) →
      (customSet inst st post).pendingDiff = st.pendingDiff ∧
      (st.pendingDiff = [] →
        (flushDiff inst (customSet inst st post)).2 = none)) := by
  by_cases hk : (getKeysToSync inst.exclude post).isEmpty
  · have hnil : getKeysToSync inst.exclude post = [] :=
      List.isEmpty_iff.mp hk
    refine ⟨by simp [customSet, hk], ?_, ?_⟩
    · intro k hkm
      rw [hnil] at hkm
      cases hkm
    · intro _
      refine ⟨by simp [customSet, hk], fun hpd => ?_⟩
      simp [customSet, hk, flushDiff, hpd]
  · refine ⟨by simp [customSet, hk], ?_, ?_⟩
    · intro k hkm hne
      simp only [customSet, hk, Bool.false_eq_true, if_false]
      exact condFold_lookup_mem _ _ _ k st.pendingDiff hkm hne
    · intro hall
      have hpd : (customSet inst st post).pendingDiff = st.pendingDiff := by
        simp only [customSet, hk, Bool.false_eq_true, if_false]
        exact condFold_id _ _ _ st.pendingDiff hall
      refine ⟨hpd, fun hempty => ?_⟩
      simp [flushDiff, hpd, hempty]

/-- C4 witness: a concrete mutation changing the single eligible key
records the new value, and a mutation changing nothing eligible leaves
the diff empty so the flush emits no message. -/
theorem c4_mutation_records_eligible_changes_witness :
    ((customSet ⟨"w4", "c", [], .active⟩ ⟨[("x", .vNum 0)], [], false⟩
        [("x", .vNum 1)]).pendingDiff.lookup "x") = some (.vNum 1) ∧
    (customSet ⟨"w4", "c", [], .active⟩ ⟨[("x", .vNum 0)], [], false⟩
        [("x", .vNum 0)]).pendingDiff = [] ∧
    (flushDiff ⟨"w4", "c", [], .active⟩
        (customSet ⟨"w4", "c", [], .active⟩ ⟨[("x", .vNum 0)], [], false⟩
          [("x", .vNum 0)])).2 = none :=
  ⟨(c4_mutation_records_eligible_changes ⟨"w4", "c", [], .active⟩
      ⟨[("x", .vNum 0)], [], false⟩ [("x", .vNum 1)]).2.1 "x"
      (by decide) (by decide),
    ((c4_mutation_records_eligible_changes ⟨"w4", "c", [], .active⟩
      ⟨[("x", .vNum 0)], [], false⟩ [("x", .vNum 0)]).2.2 (by decide)).1,
    ((c4_mutation_records_eligible_changes ⟨"w4", "c", [], .active⟩
      ⟨[("x", .vNum 0)], [], false⟩ [("x", .vNum 0)]).2.2 (by decide)).2 rfl⟩

theorem c5_mutation_step (inst : Instance) (fKey : String) (v v1 : Int)
    (pd : JsState) (t : Bool)
    (hm : inst.mode = .active)
    (hex : matchPatternOrKey fKey inst.exclude = false)
    (hne : v1 ≠ v) :
    step inst ⟨[(fKey, .vNum v)], pd, t⟩ (.mutate [(fKey, .vNum v1)]) =
      (⟨[(fKey, .vNum v1)], assign pd fKey (.vNum v1), true⟩, []) := by
  have hkeys : getKeysToSync inst.exclude [(fKey, .vNum v1)] = [fKey] := by
    simp [getKeysToSync, getProp, List.lookup, hex, jsTypeofFunction,
      List.filter]
  have hsv : jsStrictEq (JsValue.vNum v1) (JsValue.vNum v) = false := by
    simp [jsStrictEq, hne]
  simp [step, hm, customSet, hkeys, getProp, List.lookup, hsv]

theorem c5_runMutations (inst : Instance) (fKey : String)
    (hm : inst.mode = .active)
    (hex : matchPatternOrKey fKey inst.exclude = false) :
    ∀ (vs : List Int) (v : Int), adjDistinct (v :: vs) = true →
      run inst ⟨[(fKey, .vNum v)], [(fKey, .vNum v)], true⟩
          (vs.map fun n => Event.mutate [(fKey, .vNum n)]) =
        (⟨[(fKey, .vNum (vs.getLastD v))],
          [(fKey, .vNum (vs.getLastD v))], true⟩, []) := by
  intro vs
  induction vs with
  | nil => intro v _; simp [run, List.getLastD]
  | cons v1 rest ih =>
    intro v hadj
    simp only [adjDistinct, Bool.and_eq_true, bne_iff_ne] at hadj
    have hstep := c5_mutation_step inst fKey v v1
      [(fKey, .vNum v)] true hm hex (Ne.symm hadj.1)
    have hassign : assign [(fKey, JsValue.vNum v)] fKey (JsValue.vNum v1)
        = [(fKey, .vNum v1)] := by simp [assign]
    rw [hassign] at hstep
    simp only [List.map_cons, run, hstep]
    rw [ih v1 hadj.2, List.getLastD_cons]
    rfl

/-- C5: K >= 1 local mutations within one flush interval that each
change the same eligible field produce, at timer expiry, exactly one
outbound `STATE_UPDATE` whose payload carries only the final value of
that field; and `flushDiff` always publishes a snapshot of the pending
diff when non-empty, clears it, and disarms the timer regardless. -/
theorem c5_batching_single_message (inst : Instance) (fKey : String)
    (n0 v : Int) (vs : List Int)
    (hm : inst.mode = .active)
    (hex : matchPatternOrKey fKey inst.exclude = false)
    (hadj : adjDistinct (n0 :: v :: vs) = true) :
    ((run inst ⟨[(fKey, .vNum n0)], [], false⟩
        (((v :: vs).map fun n => Event.mutate [(fKey, .vNum n)])
          ++ [Event.timerFire])).2
      = [⟨"STATE_UPDATE", inst.instanceId,
          some [(fKey, .vNum (vs.getLastD v))]⟩] ∧
    (run inst ⟨[(fKey, .vNum n0)], [], false⟩
        (((v :: vs).map fun n => Event.mutate [(fKey, .vNum n)])
          ++ [Event.timerFire])).1.pendingDiff = [] ∧
    (run inst ⟨[(fKey, .vNum n0)], [], false⟩
        (((v :: vs).map fun n => Event.mutate [(fKey, .vNum n)])
          ++ [Event.timerFire])).1.timerArmed = false) ∧
    (∀ st' : SyncState,
      (flushDiff inst st').1.pendingDiff = [] ∧
      (flushDiff inst st').1.timerArmed = false ∧
      (st'.pendingDiff ≠ [] →
        (flushDiff inst st').2
          = some ⟨"STATE_UPDATE", inst.instanceId, some st'.pendingDiff⟩)) := by
  simp only [adjDistinct, Bool.and_eq_true, bne_iff_ne] at hadj
  have hstep0 := c5_mutation_step inst fKey n0 v [] false hm hex
    (Ne.symm hadj.1)
  have hassign : assign ([] : JsState) fKey (JsValue.vNum v)
      = [(fKey, .vNum v)] := rfl
  rw [hassign] at hstep0
  have hmuts := c5_runMutations inst fKey hm hex vs v
    (by
      rcases vs with _ | ⟨v2, rest⟩
      · rfl
      · simp only [adjDistinct, Bool.and_eq_true, bne_iff_ne] at hadj ⊢
        exact hadj.2)
  have hfire : step inst ⟨[(fKey, .vNum (vs.getLastD v))],
      [(fKey, .vNum (vs.getLastD v))], true⟩ .timerFire =
      (⟨[(fKey, .vNum (vs.getLastD v))], [], false⟩,
        [⟨"STATE_UPDATE", inst.instanceId,
          some [(fKey, .vNum (vs.getLastD v))]⟩]) := by
    simp [step, hm, flushDiff]
  constructor
  · have hrun : run inst ⟨[(fKey, .vNum n0)], [], false⟩
        (((v :: vs).map fun n => Event.mutate [(fKey, .vNum n)])
          ++ [Event.timerFire]) =
        (⟨[(fKey, .vNum (vs.getLastD v))], [], false⟩,
          [⟨"STATE_UPDATE", inst.instanceId,
            some [(fKey, .vNum (vs.getLastD v))]⟩]) := by
      rw [List.map_cons, List.cons_append]
      simp only [run, hstep0]
      rw [run_append]
      rw [hmuts]
      simp only [run, hfire]
      simp [run]
    rw [hrun]
    exact ⟨rfl, rfl, rfl⟩
  · intro st'
    by_cases hpd : st'.pendingDiff.isEmpty
    · have hnil : st'.pendingDiff = [] := List.isEmpty_iff.mp hpd
      refine ⟨by simp [flushDiff, hpd, hnil], by simp [flushDiff, hpd],
        fun hne => absurd hnil hne⟩
    · refine ⟨by simp [flushDiff, hpd], by simp [flushDiff, hpd],
        fun _ => by simp [flushDiff, hpd]⟩

/-- C5 witness: two mutations of `x` (0 → 1 → 2) within one interval
yield exactly one published update carrying only the final value 2. -/
theorem c5_batching_single_message_witness :
    (run ⟨"w5", "c", [], .active⟩ ⟨[("x", .vNum 0)], [], false⟩
        [.mutate [("x", .vNum 1)], .mutate [("x", .vNum 2)], .timerFire]).2
      = [⟨"STATE_UPDATE", "w5", some [("x", .vNum 2)]⟩] :=
  (c5_batching_single_message ⟨"w5", "c", [], .active⟩ "x" 0 1 [2]
    rfl rfl (by decide)).1.1

/-- C7: exclusion correctness.  Starting from a pending diff whose keys
all pass the exclude filter (in particular the initial empty diff),
no outbound payload an instance publishes over any sequence of
mutations, timer firings and inbound messages — flushed diffs and join
snapshots alike — contains a key matching a configured exclude entry;
and the `LOAD` message posted at construction carries no payload at all. -/
theorem c7_exclusion_correctness (inst : Instance) (st : SyncState)
    (evts : List Event) (o : CreateOptions) (s : JsState) (iid : String)
    (avail : Bool)
    (h : cleanDiff inst.exclude st.pendingDiff = true) :
    (run inst st evts).2.all (cleanMsg inst.exclude) = true ∧
    ((createWithSync o s iid avail).2.2).all (cleanMsg o.exclude) = true := by
  refine ⟨(run_clean inst evts st h).2, ?_⟩
  cases avail <;> rfl

/-- C7 witness: with `token` excluded, a run containing a mutation that
changes `token` and `count`, a flush, and an inbound join request
publishes only payloads free of the key `token`. -/
theorem c7_exclusion_correctness_witness :
    ((run ⟨"w7", "c", [.exactKey "token"], .active⟩
        ⟨[("token", .vStr "a"), ("count", .vNum 0)], [], false⟩
        [.mutate [("token", .vStr "b"), ("count", .vNum 1)], .timerFire,
          .inbound (some ⟨some "LOAD", some "peer", none⟩)]).2.all
      (cleanMsg [.exactKey "token"])) = true ∧
    ((createWithSync ⟨[.exactKey "token"]⟩
        [("token", .vStr "a"), ("count", .vNum 0)] "w7" true).2.2).all
      (cleanMsg [.exactKey "token"]) = true :=
  c7_exclusion_correctness ⟨"w7", "c", [.exactKey "token"], .active⟩
    ⟨[("token", .vStr "a"), ("count", .vNum 0)], [], false⟩
    [.mutate [("token", .vStr "b"), ("count", .vNum 1)], .timerFire,
      .inbound (some ⟨some "LOAD", some "peer", none⟩)]
    ⟨[.exactKey "token"]⟩ [("token", .vStr "a"), ("count", .vNum 0)]
    "w7" true rfl

end ZustandSync
